import Mathlib

/-!
Verification development for the PothosCore buffer-chunk subsystem
(`lib/Framework/BufferChunk.cpp` plus the `Exception.hpp` taxonomy).

The embedding translates the C++ source into executable Lean definitions:
machine integers become `Nat` with explicit `% 2^32` where the source casts
to `Poco::UInt32`; memory is modelled as explicit byte lists (`List Nat`,
each entry a byte value); the serialization archive (an external
collaborator, only its wire contract is specified) is modelled as a byte
stream with fallible reads returning `Except`.
-/

namespace Pothos

/-- Error kinds of the exception taxonomy (`Exception.hpp`): the three kinds
relevant to this subsystem per the spec's error-handling design. -/
inductive ErrorKind where
  | outOfMemory
  | dataFormat
  | invalidAccess
  deriving DecidableEq, Repr

/-- A raw reference-counted memory region: starting address, byte length,
and the bytes it holds (memory content modelled explicitly so that
serialization can copy payload bytes). Address 0 is the null buffer. -/
structure SharedBuffer where
  address : Nat
  length : Nat
  data : List Nat
  deriving DecidableEq, Repr

/-- `SharedBuffer::getAddress` accessor. -/
def SharedBuffer.getAddress (b : SharedBuffer) : Nat := b.address

/-- `SharedBuffer::getLength` accessor. -/
def SharedBuffer.getLength (b : SharedBuffer) : Nat := b.length

/-- Modelled from the spec: `SharedBuffer::make` (its implementation is not
in the excerpt). The platform allocator is modelled as a function from a
request size to `some` fresh starting address, or `none` when the request
cannot be satisfied; `make` then fails with `OutOfMemory`, never retrying.
A fresh region of `numBytes` zero bytes is produced on success. -/
def SharedBuffer.make (alloc : Nat → Option Nat) (numBytes : Nat) :
    Except ErrorKind SharedBuffer :=
  match alloc numBytes with
  | some addr => .ok { address := addr, length := numBytes, data := List.replicate numBytes 0 }
  | none => .error .outOfMemory

/-- A pool-recycled wrapper around a `SharedBuffer`: the wrapped buffer plus
a weak back-reference to the issuing pool. Modelled from the spec for the
parts outside the excerpt: the pool back-reference is a liveness-checkable
identifier, never ownership. -/
structure ManagedBuffer where
  buffer : SharedBuffer
  poolId : Nat
  deriving DecidableEq, Repr

/-- `ManagedBuffer::getBuffer` accessor. -/
def ManagedBuffer.getBuffer (b : ManagedBuffer) : SharedBuffer := b.buffer

/-- The buffer-chunk value type: an address, a byte length, the payload
bytes visible through the chunk's view of memory, and the two internal
ownership slots of the C++ class (`_buffer`, `_managedBuffer`), each
`none` when the slot holds no (non-null) buffer. -/
structure BufferChunk where
  address : Nat
  length : Nat
  payload : List Nat
  _buffer : Option SharedBuffer
  _managedBuffer : Option ManagedBuffer
  deriving DecidableEq, Repr

/-- `BufferChunk::BufferChunk(void)` — the zero-argument constructor:
`address(0), length(0)`, both ownership slots empty (BufferChunk.cpp
lines 6-11). -/
def BufferChunk.nullChunk : BufferChunk :=
  { address := 0, length := 0, payload := [], _buffer := none, _managedBuffer := none }

/-- Modelled from the spec: `BufferChunk::null()` (declared in the header,
which is not in the excerpt) — the dedicated `isNull` predicate is
`address == 0`. -/
def BufferChunk.null (t : BufferChunk) : Bool := t.address == 0

/-- `BufferChunk::BufferChunk(const size_t numBytes)` (BufferChunk.cpp
lines 13-19): `length(numBytes)`, `_buffer(SharedBuffer::make(numBytes))`,
then `address = _buffer.getAddress()`. The allocator model is threaded
through; an allocation failure propagates to the caller. -/
def BufferChunk.ofSize (alloc : Nat → Option Nat) (numBytes : Nat) :
    Except ErrorKind BufferChunk :=
  match SharedBuffer.make alloc numBytes with
  | .error e => .error e
  | .ok buf =>
      .ok { address := buf.getAddress, length := numBytes, payload := buf.data,
            _buffer := some buf, _managedBuffer := none }

/-- `BufferChunk::BufferChunk(const SharedBuffer &buffer)` (BufferChunk.cpp
lines 21-27): `address(buffer.getAddress()), length(buffer.getLength()),
_buffer(buffer)`. -/
def BufferChunk.ofShared (buffer : SharedBuffer) : BufferChunk :=
  { address := buffer.getAddress, length := buffer.getLength, payload := buffer.data,
    _buffer := some buffer, _managedBuffer := none }

/-- `BufferChunk::BufferChunk(const ManagedBuffer &buffer)` (BufferChunk.cpp
lines 29-36): `address(buffer.getBuffer().getAddress()),
length(buffer.getBuffer().getLength()), _buffer(buffer.getBuffer()),
_managedBuffer(buffer)`. -/
def BufferChunk.ofManaged (buffer : ManagedBuffer) : BufferChunk :=
  { address := buffer.getBuffer.getAddress, length := buffer.getBuffer.getLength,
    payload := buffer.getBuffer.data,
    _buffer := some buffer.getBuffer, _managedBuffer := some buffer }

/-- The action taken when the last reference to a chunk is dropped.
Modelled from the spec: a pooled owner routes release through the
pool-return path; a plain shared owner frees directly; a null/non-owning
chunk releases nothing. -/
inductive ReleaseAction where
  | noop
  | free
  | poolReturn
  deriving DecidableEq, Repr

/-- Modelled from the spec: which release path a chunk's ownership selects
(the pooled slot, when occupied, redirects release to the pool). -/
def BufferChunk.releaseAction (t : BufferChunk) : ReleaseAction :=
  match t._managedBuffer with
  | some _ => .poolReturn
  | none =>
      match t._buffer with
      | some _ => .free
      | none => .noop

/-- A chunk is well formed when its payload view holds exactly `length`
bytes (the bytes at `[address, address + length)` of the backing memory). -/
def BufferChunk.wf (t : BufferChunk) : Prop := t.payload.length = t.length

/-- The half-open bounds invariant of the spec's data model: when the
ownership slot holds a buffer, `address ∈ [owned.address, owned.address +
owned.length)` and `address + length ≤ owned.address + owned.length`. -/
def BufferChunk.inBounds (t : BufferChunk) : Bool :=
  match t._buffer with
  | none => true
  | some buf =>
      decide (buf.address ≤ t.address) &&
      decide (t.address < buf.address + buf.length) &&
      decide (t.address + t.length ≤ buf.address + buf.length)

/-- The closed-interval weakening of `inBounds`: `address` may also sit at
the one-past-the-end position (which coincides with the start for an empty
owned buffer). -/
def BufferChunk.inBoundsClosed (t : BufferChunk) : Bool :=
  match t._buffer with
  | none => true
  | some buf =>
      decide (buf.address ≤ t.address) &&
      decide (t.address ≤ buf.address + buf.length) &&
      decide (t.address + t.length ≤ buf.address + buf.length)

/-- The chunk's view covers the owned buffer's full extent. -/
def BufferChunk.fullExtent (t : BufferChunk) : Bool :=
  match t._buffer with
  | none => false
  | some buf => decide (t.address = buf.address) && decide (t.length = buf.length)

/-!
## Serialization

The archive abstraction is an external collaborator; only its wire
contract is specified: one boolean flag byte (`0x01` for true, `0x00` for
false), a 4-byte fixed-width little-endian unsigned integer, and raw byte
ranges. Reads from a stream with too few bytes remaining are a
data-format error.
-/

namespace serialization

/-- Modelled from the spec: the archive's encoding of a boolean — one flag
byte, `0x00` for false and `0x01` for true. -/
def boolByte (b : Bool) : Nat := if b then 1 else 0

/-- Modelled from the spec: the archive's encoding of a 4-byte fixed-width
unsigned integer, little-endian. Only the low 32 bits of `n` are
representable in the field. -/
def u32le (n : Nat) : List Nat :=
  [n % 256, n / 256 % 256, n / 65536 % 256, n / 16777216 % 256]

/-- The value a 4-byte little-endian field denotes. -/
def decodeU32 (bs : List Nat) : Nat :=
  match bs with
  | [b0, b1, b2, b3] => b0 + 256 * b1 + 65536 * b2 + 16777216 * b3
  | _ => 0

/-- Modelled from the spec: the archive's read of one byte; a truncated
stream is a data-format error. -/
def readByte (s : List Nat) : Except ErrorKind (Nat × List Nat) :=
  match s with
  | [] => .error .dataFormat
  | b :: rest => .ok (b, rest)

/-- Modelled from the spec: the archive's read of a 4-byte little-endian
unsigned field; a truncated stream is a data-format error. -/
def readU32 (s : List Nat) : Except ErrorKind (Nat × List Nat) :=
  match s with
  | b0 :: b1 :: b2 :: b3 :: rest =>
      .ok (b0 + 256 * b1 + 65536 * b2 + 16777216 * b3, rest)
  | _ => .error .dataFormat

/-- Modelled from the spec: the archive's read of a raw byte range
(`binary_object`) of `n` bytes; fewer than `n` bytes remaining is a
data-format error, never a silent short read. -/
def readBytes (n : Nat) (s : List Nat) : Except ErrorKind (List Nat × List Nat) :=
  match n, s with
  | 0, s => .ok ([], s)
  | _ + 1, [] => .error .dataFormat
  | n + 1, b :: s =>
      match readBytes n s with
      | .ok (bs, rest) => .ok (b :: bs, rest)
      | .error e => .error e

/-- `Pothos::serialization::save` (BufferChunk.cpp lines 52-62): write the
`is_null` flag; when null, stop; otherwise write
`Poco::UInt32(t.length)` — a narrowing cast, hence `t.length % 2^32` —
then the `t.length` payload bytes of the chunk's memory. -/
def save (t : BufferChunk) : List Nat :=
  if t.null then [boolByte true]
  else boolByte false :: (u32le (t.length % 4294967296) ++ t.payload)

/-- `Pothos::serialization::load` (BufferChunk.cpp lines 64-76): start from
the null chunk; read the `is_null` flag and stop at the null chunk when it
is set; otherwise read the 4-byte length, construct a fresh sized chunk of
that size (an allocation, through the modelled allocator), and read exactly
that many bytes into its memory. -/
def load (alloc : Nat → Option Nat) (s : List Nat) :
    Except ErrorKind (BufferChunk × List Nat) :=
  match readByte s with
  | .error e => .error e
  | .ok (flag, s1) =>
      if flag ≠ 0 then .ok (BufferChunk.nullChunk, s1)
      else
        match readU32 s1 with
        | .error e => .error e
        | .ok (len, s2) =>
            match BufferChunk.ofSize alloc len with
            | .error e => .error e
            | .ok t =>
                match readBytes t.length s2 with
                | .error e => .error e
                | .ok (bs, s3) => .ok ({ t with payload := bs }, s3)

end serialization

/-!
## Reflection / registration surface

The generic-object `ManagedClass` machinery is an external collaborator;
modelled from the spec: the registration records which constructors are
exposed and which fields are readable by name. The concrete registration
below transcribes `managedBufferChunk` (BufferChunk.cpp lines 40-45).
-/

/-- Modelled from the spec: the surface a `ManagedClass` registration
exposes to the external object system — an optional zero-argument
constructor, an optional single-size-argument constructor, named readable
fields, and the committed class name. -/
structure ManagedClassReg where
  ctorNull : Option BufferChunk
  ctorSize : Option ((Nat → Option Nat) → Nat → Except ErrorKind BufferChunk)
  fields : List (String × (BufferChunk → Nat))
  className : String

/-- `managedBufferChunk` (BufferChunk.cpp lines 40-45): registers the
zero-argument constructor, the `size_t` constructor, the `address` and
`length` fields, and commits under `"Pothos/BufferChunk"`. -/
def managedBufferChunk : ManagedClassReg :=
  { ctorNull := some BufferChunk.nullChunk
  , ctorSize := some BufferChunk.ofSize
  , fields := [("address", BufferChunk.address), ("length", BufferChunk.length)]
  , className := "Pothos/BufferChunk" }

/-!
## Helper lemmas about the archive primitives
-/

namespace serialization

theorem u32le_length (n : Nat) : (u32le n).length = 4 := rfl

theorem decodeU32_u32le (n : Nat) : decodeU32 (u32le n) = n % 4294967296 := by
  simp only [u32le, decodeU32]
  omega

theorem readU32_u32le (n : Nat) (s : List Nat) :
    readU32 (u32le n ++ s) = .ok (n % 4294967296, s) := by
  simp only [u32le, readU32, List.cons_append, List.nil_append]
  congr 2
  omega

theorem readBytes_exact (bs rest : List Nat) :
    readBytes bs.length (bs ++ rest) = .ok (bs, rest) := by
  induction bs with
  | nil => rfl
  | cons b bs ih => simp [readBytes, ih]

theorem readBytes_short (n : Nat) (s : List Nat) (h : s.length < n) :
    readBytes n s = .error .dataFormat := by
  induction s generalizing n with
  | nil =>
      match n, h with
      | m + 1, _ => rfl
  | cons b s ih =>
      match n, h with
      | m + 1, h =>
          have : s.length < m := by simpa using h
          simp [readBytes, ih m this]

theorem u32le_mod (n : Nat) : u32le (n % 4294967296) = u32le n := by
  simp only [u32le, List.cons.injEq, and_true]
  refine ⟨?_, ?_, ?_, ?_⟩ <;> omega

end serialization

/-- Helper: the sized constructor under a successful allocation. -/
theorem ofSize_ok (alloc : Nat → Option Nat) (n a : Nat) (h : alloc n = some a) :
    BufferChunk.ofSize alloc n =
      .ok { address := a, length := n, payload := List.replicate n 0,
            _buffer := some { address := a, length := n, data := List.replicate n 0 },
            _managedBuffer := none } := by
  simp [BufferChunk.ofSize, SharedBuffer.make, h, SharedBuffer.getAddress]

/-- Helper: `load` on a well-formed non-null stream with enough payload
bytes produces the freshly allocated chunk filled with those bytes. -/
theorem load_ok (alloc : Nat → Option Nat) (a L : Nat) (bytesL rest : List Nat)
    (hL : L < 4294967296) (hlen : bytesL.length = L) (ha : alloc L = some a) :
    serialization.load alloc (0 :: (serialization.u32le L ++ (bytesL ++ rest))) =
      .ok ({ address := a, length := L, payload := bytesL,
             _buffer := some { address := a, length := L, data := List.replicate L 0 },
             _managedBuffer := none }, rest) := by
  unfold serialization.load
  simp only [serialization.readByte, ne_eq, not_true_eq_false, if_false,
    serialization.readU32_u32le, Nat.mod_eq_of_lt hL, ofSize_ok alloc L a ha]
  subst hlen
  simp [serialization.readBytes_exact]

/-!
## Concrete example values
-/

/-- A known 16-byte pattern for the end-to-end example. -/
def pattern16 : List Nat := [10, 11, 12, 13, 14, 15, 16, 17, 18, 19, 20, 21, 22, 23, 24, 25]

/-- A 16-byte chunk allocated through the sized constructor, its memory
then filled with `pattern16`. -/
def chunk16 : BufferChunk :=
  match BufferChunk.ofSize (fun _ => some 4096) 16 with
  | .ok t => { t with payload := pattern16 }
  | .error _ => BufferChunk.nullChunk

/-- 2^32. -/
def bigLen : Nat := 4294967296

/-- A well-formed owned chunk of 2^32 bytes (all zero): the smallest length
at which the `Poco::UInt32` narrowing cast in `save` loses information. -/
def cBig : BufferChunk :=
  { address := 4096, length := bigLen, payload := List.replicate bigLen 0,
    _buffer := some { address := 4096, length := bigLen, data := List.replicate bigLen 0 },
    _managedBuffer := none }

/-- Helper: the serialized form of `cBig` — the length field collapses to
0 because `2^32 % 2^32 = 0`, while all 2^32 payload bytes still follow. -/
theorem save_cBig :
    serialization.save cBig = 0 :: ([0, 0, 0, 0] ++ List.replicate bigLen 0) := rfl

/-- A chunk produced by the sized constructor for a zero-byte request. -/
def chunkZeroSized : BufferChunk :=
  match BufferChunk.ofSize (fun _ => some 4096) 0 with
  | .ok t => t
  | .error _ => BufferChunk.nullChunk

/-!
## Claims
-/

/-- Claim C3: every chunk constructed by the zero-argument constructor
satisfies `address == 0`, `length == 0`, and `isNull() == true` — the
canonical null chunk. -/
theorem c3_null_ctor :
    BufferChunk.nullChunk.address = 0 ∧ BufferChunk.nullChunk.length = 0 ∧
    BufferChunk.nullChunk.null = true := by
  decide

/-- Claim C7: a chunk adopting an existing shared buffer takes shared
ownership of it and mirrors its full address/length; a chunk adopting a
managed (pooled) buffer takes shared ownership of the pooled buffer,
mirrors the wrapped raw buffer's full extent, and its release routes
through the pool-return path rather than direct deallocation. -/
theorem c7_adopting_ctors (buffer : SharedBuffer) (mb : ManagedBuffer) :
    (BufferChunk.ofShared buffer).address = buffer.address ∧
    (BufferChunk.ofShared buffer).length = buffer.length ∧
    (BufferChunk.ofShared buffer)._buffer = some buffer ∧
    (BufferChunk.ofShared buffer)._managedBuffer = none ∧
    (BufferChunk.ofShared buffer).releaseAction = .free ∧
    (BufferChunk.ofManaged mb).address = mb.getBuffer.address ∧
    (BufferChunk.ofManaged mb).length = mb.getBuffer.length ∧
    (BufferChunk.ofManaged mb)._buffer = some mb.getBuffer ∧
    (BufferChunk.ofManaged mb)._managedBuffer = some mb ∧
    (BufferChunk.ofManaged mb).releaseAction = .poolReturn :=
  ⟨rfl, rfl, rfl, rfl, rfl, rfl, rfl, rfl, rfl, rfl⟩

/-- Claim C5: serializing a 16-byte chunk holding a known 16-byte pattern
produces exactly the stream `[0x00, 0x10 0x00 0x00 0x00, <16 pattern
bytes>]`, and deserializing that stream reproduces an equal chunk (same
length, byte-identical payload). -/
theorem c5_example_stream :
    serialization.save chunk16 = 0 :: (16 :: 0 :: 0 :: 0 :: pattern16) ∧
    serialization.load (fun _ => some 4096) (0 :: (16 :: 0 :: 0 :: 0 :: pattern16)) =
      .ok ({ address := 4096, length := 16, payload := pattern16,
             _buffer := some { address := 4096, length := 16, data := List.replicate 16 0 },
             _managedBuffer := none }, []) ∧
    chunk16.length = 16 ∧ chunk16.payload = pattern16 :=
  ⟨rfl, rfl, rfl, rfl⟩

/-- A small non-null chunk adopting a 2-byte shared buffer, used to
instantiate hypotheses at concrete inputs. -/
def chunkW : BufferChunk :=
  BufferChunk.ofShared { address := 4096, length := 2, data := [5, 6] }

/-- Claim C1, as stated, is false: for the well-formed chunk `cBig` of
length 2^32, deserializing its serialization yields a chunk of length 0
(the 4-byte length field wrapped to 0), not 2^32 — with the 2^32 payload
bytes left unconsumed in the stream. -/
theorem c1_counterexample :
    cBig.wf ∧
    serialization.load (fun _ => some 4096) (serialization.save cBig) =
      .ok ({ address := 4096, length := 0, payload := [],
             _buffer := some { address := 4096, length := 0, data := [] },
             _managedBuffer := none }, List.replicate bigLen 0) ∧
    (0 : Nat) ≠ cBig.length := by
  refine ⟨?_, ?_, by decide⟩
  · show (List.replicate bigLen 0).length = cBig.length
    simp [cBig]
  · rw [save_cBig]
    rfl

/-- Claim C1 (amended): for every well-formed chunk (payload holds exactly
`length` bytes; address 0 only with length 0) whose **length is below
2^32**, deserializing the serialization yields a chunk with the same
length and byte-identical payload, consuming the whole stream; serializing
the null chunk yields exactly one flag byte, and deserializing that yields
the canonical null chunk. -/
theorem c1_roundtrip (alloc : Nat → Option Nat) (c : BufferChunk) (a : Nat)
    (hwf : c.wf) (hinv : c.address = 0 → c.length = 0) (hlen : c.length < 4294967296)
    (ha : alloc c.length = some a) :
    (∃ c' rest, serialization.load alloc (serialization.save c) = .ok (c', rest) ∧
      c'.length = c.length ∧ c'.payload = c.payload ∧ rest = []) ∧
    serialization.save BufferChunk.nullChunk = [serialization.boolByte true] ∧
    serialization.load alloc (serialization.save BufferChunk.nullChunk) =
      .ok (BufferChunk.nullChunk, []) := by
  refine ⟨?_, rfl, rfl⟩
  by_cases h0 : c.address = 0
  · have hl0 : c.length = 0 := hinv h0
    have hp : c.payload = [] := by
      have h := hwf
      rw [BufferChunk.wf, hl0] at h
      exact List.length_eq_zero.mp h
    have hnull : c.null = true := by simp [BufferChunk.null, h0]
    have hsave : serialization.save c = [serialization.boolByte true] := by
      simp [serialization.save, hnull]
    rw [hsave]
    exact ⟨BufferChunk.nullChunk, [], rfl, hl0.symm, hp.symm, rfl⟩
  · have hnull : c.null = false := by simp [BufferChunk.null, h0]
    have hsave : serialization.save c =
        0 :: (serialization.u32le c.length ++ (c.payload ++ [])) := by
      simp [serialization.save, hnull, serialization.boolByte, serialization.u32le_mod]
    rw [hsave, load_ok alloc a c.length c.payload [] hlen hwf ha]
    exact ⟨_, [], rfl, rfl, rfl, rfl⟩

/-- Witness for the amended claim C1 at the concrete chunk `chunkW`. -/
theorem c1_roundtrip_witness :
    chunkW.wf ∧ (chunkW.address = 0 → chunkW.length = 0) ∧
    chunkW.length < 4294967296 ∧
    ((∃ c' rest,
        serialization.load (fun _ => some 8192) (serialization.save chunkW) =
          .ok (c', rest) ∧
        c'.length = chunkW.length ∧ c'.payload = chunkW.payload ∧ rest = []) ∧
     serialization.save BufferChunk.nullChunk = [serialization.boolByte true] ∧
     serialization.load (fun _ => some 8192) (serialization.save BufferChunk.nullChunk) =
       .ok (BufferChunk.nullChunk, [])) :=
  ⟨rfl, by decide, by decide,
   c1_roundtrip (fun _ => some 8192) chunkW 8192 rfl (by decide) (by decide) rfl⟩

/-- Claim C2, as stated, is false: for the non-null chunk `cBig` of length
2^32, the 4-byte length field written by `save` does not equal the chunk's
byte length (it holds `2^32 % 2^32 = 0`). -/
theorem c2_counterexample :
    cBig.null = false ∧
    serialization.decodeU32 (List.take 4 (List.drop 1 (serialization.save cBig))) ≠
      cBig.length := by
  refine ⟨rfl, ?_⟩
  rw [save_cBig]
  show serialization.decodeU32 (List.take 4 ([0, 0, 0, 0] ++ List.replicate bigLen 0)) ≠
    cBig.length
  show ((0 : Nat) + 256 * 0 + 65536 * 0 + 16777216 * 0) ≠ cBig.length
  decide

/-- Claim C2 (amended): serialization writes an `is_null` flag byte; a null
chunk contributes nothing further; otherwise a 4-byte unsigned length field
holding the chunk's byte length **reduced modulo 2^32** is written,
followed by the `length` payload bytes of the chunk's memory;
deserialization reads the flag, yields the canonical null chunk when it is
set, and otherwise reads the length, allocates a fresh owned chunk of that
size, and reads exactly that many bytes into it. -/
theorem c2_wire_format (c : BufferChunk) (alloc : Nat → Option Nat) (a L : Nat)
    (bytesL rest : List Nat) (hnull : c.null = false) (hL : L < 4294967296)
    (hlen : bytesL.length = L) (ha : alloc L = some a) :
    (∀ t : BufferChunk, t.null = true → serialization.save t = [serialization.boolByte true]) ∧
    serialization.save c =
      serialization.boolByte false ::
        (serialization.u32le (c.length % 4294967296) ++ c.payload) ∧
    serialization.decodeU32 (List.take 4 (List.drop 1 (serialization.save c))) =
      c.length % 4294967296 ∧
    (∀ s, serialization.load alloc (serialization.boolByte true :: s) =
      .ok (BufferChunk.nullChunk, s)) ∧
    serialization.load alloc
        (serialization.boolByte false :: (serialization.u32le L ++ (bytesL ++ rest))) =
      .ok ({ address := a, length := L, payload := bytesL,
             _buffer := some { address := a, length := L, data := List.replicate L 0 },
             _managedBuffer := none }, rest) := by
  have hsave : serialization.save c =
      serialization.boolByte false ::
        (serialization.u32le (c.length % 4294967296) ++ c.payload) := by
    simp [serialization.save, hnull]
  refine ⟨?_, hsave, ?_, ?_, ?_⟩
  · intro t ht; simp [serialization.save, ht]
  · rw [hsave]
    show serialization.decodeU32
        (List.take 4 (serialization.u32le (c.length % 4294967296) ++ c.payload)) =
      c.length % 4294967296
    rw [List.take_left' (serialization.u32le_length _), serialization.decodeU32_u32le]
    omega
  · intro s; rfl
  · show serialization.load alloc (0 :: (serialization.u32le L ++ (bytesL ++ rest))) = _
    exact load_ok alloc a L bytesL rest hL hlen ha

/-- Witness for the amended claim C2 at the concrete chunk `chunkW` and a
concrete non-null stream carrying 2 payload bytes. -/
theorem c2_wire_format_witness :
    chunkW.null = false ∧ (2 : Nat) < 4294967296 ∧ ([5, 6] : List Nat).length = 2 ∧
    ((∀ t : BufferChunk, t.null = true →
        serialization.save t = [serialization.boolByte true]) ∧
     serialization.save chunkW =
       serialization.boolByte false ::
         (serialization.u32le (chunkW.length % 4294967296) ++ chunkW.payload) ∧
     serialization.decodeU32 (List.take 4 (List.drop 1 (serialization.save chunkW))) =
       chunkW.length % 4294967296 ∧
     (∀ s, serialization.load (fun _ => some 8192) (serialization.boolByte true :: s) =
       .ok (BufferChunk.nullChunk, s)) ∧
     serialization.load (fun _ => some 8192)
         (serialization.boolByte false :: (serialization.u32le 2 ++ ([5, 6] ++ [9]))) =
       .ok ({ address := 8192, length := 2, payload := [5, 6],
              _buffer := some { address := 8192, length := 2, data := List.replicate 2 0 },
              _managedBuffer := none }, [9])) :=
  ⟨rfl, by decide, rfl,
   c2_wire_format chunkW (fun _ => some 8192) 8192 2 [5, 6] [9] rfl (by decide) rfl rfl⟩

/-- Claim C4: deserializing a non-null stream whose declared length is `L`
but which has fewer than `L` payload bytes remaining fails with a
`DataFormat` error; no chunk is returned (the `Except.error` result carries
no partially-filled chunk — the partially-constructed chunk is discarded). -/
theorem c4_truncated (alloc : Nat → Option Nat) (a L : Nat) (rest : List Nat)
    (hL : L < 4294967296) (hshort : rest.length < L) (ha : alloc L = some a) :
    serialization.load alloc (0 :: (serialization.u32le L ++ rest)) =
      .error .dataFormat := by
  unfold serialization.load
  simp only [serialization.readByte, ne_eq, not_true_eq_false, if_false,
    serialization.readU32_u32le, Nat.mod_eq_of_lt hL, ofSize_ok alloc L a ha]
  simp [serialization.readBytes_short L rest hshort]

/-- Witness for claim C4: a stream declaring 3 payload bytes while only one
remains. -/
theorem c4_truncated_witness :
    (3 : Nat) < 4294967296 ∧ ([7] : List Nat).length < 3 ∧
    serialization.load (fun _ => some 4096) (0 :: (serialization.u32le 3 ++ [7])) =
      .error .dataFormat :=
  ⟨by decide, by decide,
   c4_truncated (fun _ => some 4096) 4096 3 [7] (by decide) (by decide) rfl⟩

/-- Claim C10: for a non-null chunk whose length is at least 2^32, the
narrowing `Poco::UInt32` cast truncates silently — the 4-byte length field
of the serialized stream holds `length % 2^32`, which differs from the
chunk's actual byte length. -/
theorem c10_truncating_cast (c : BufferChunk) (h0 : c.null = false)
    (hlen : 4294967296 ≤ c.length) :
    List.take 4 (List.drop 1 (serialization.save c)) =
      serialization.u32le (c.length % 4294967296) ∧
    serialization.decodeU32 (List.take 4 (List.drop 1 (serialization.save c))) =
      c.length % 4294967296 ∧
    c.length % 4294967296 ≠ c.length := by
  have hsave : serialization.save c =
      serialization.boolByte false ::
        (serialization.u32le (c.length % 4294967296) ++ c.payload) := by
    simp [serialization.save, h0]
  have key : List.take 4 (List.drop 1 (serialization.save c)) =
      serialization.u32le (c.length % 4294967296) := by
    rw [hsave]
    show List.take 4 (serialization.u32le (c.length % 4294967296) ++ c.payload) = _
    exact List.take_left' (serialization.u32le_length _)
  refine ⟨key, ?_, ?_⟩
  · rw [key, serialization.decodeU32_u32le]
    omega
  · omega

/-- Witness for claim C10 at the 2^32-byte chunk `cBig`. -/
theorem c10_truncating_cast_witness :
    cBig.null = false ∧ 4294967296 ≤ cBig.length ∧
    (List.take 4 (List.drop 1 (serialization.save cBig)) =
       serialization.u32le (cBig.length % 4294967296) ∧
     serialization.decodeU32 (List.take 4 (List.drop 1 (serialization.save cBig))) =
       cBig.length % 4294967296 ∧
     cBig.length % 4294967296 ≠ cBig.length) :=
  ⟨rfl, by decide, c10_truncating_cast cBig rfl (by decide)⟩

/-- Claim C6: the single-size-argument constructor allocates exactly
`numBytes` bytes via a new shared buffer, takes full ownership of it, and
sets the chunk's length to `numBytes` and its address to the start of the
newly allocated region; when the allocation cannot be satisfied, an
`OutOfMemory` error propagates synchronously to the caller (the
constructor performs no retry — its result is exactly the allocator's
single answer). -/
theorem c6_sized_ctor (alloc : Nat → Option Nat) (n : Nat) :
    (∀ a, alloc n = some a →
      BufferChunk.ofSize alloc n =
        .ok { address := a, length := n, payload := List.replicate n 0,
              _buffer := some { address := a, length := n, data := List.replicate n 0 },
              _managedBuffer := none }) ∧
    (alloc n = none → BufferChunk.ofSize alloc n = .error .outOfMemory) := by
  constructor
  · intro a ha
    exact ofSize_ok alloc n a ha
  · intro h
    simp [BufferChunk.ofSize, SharedBuffer.make, h]

/-- Witness for claim C6: a successful 8-byte allocation at address 4096,
and a failing allocator surfacing `OutOfMemory`. -/
theorem c6_sized_ctor_witness :
    ((fun _ : Nat => some 4096) 8 = some 4096 ∧
     BufferChunk.ofSize (fun _ => some 4096) 8 =
       .ok { address := 4096, length := 8, payload := List.replicate 8 0,
             _buffer := some { address := 4096, length := 8, data := List.replicate 8 0 },
             _managedBuffer := none }) ∧
    ((fun _ : Nat => (none : Option Nat)) 8 = none ∧
     BufferChunk.ofSize (fun _ => none) 8 = .error .outOfMemory) :=
  ⟨⟨rfl, (c6_sized_ctor (fun _ => some 4096) 8).1 4096 rfl⟩,
   ⟨rfl, (c6_sized_ctor (fun _ => none) 8).2 rfl⟩⟩

/-- Claim C8, as stated, is false: the sized constructor invoked for a
zero-byte request yields a chunk whose ownership slot holds a (zero-length)
buffer while its address does not lie in the empty half-open interval
`[owned.address, owned.address + owned.length)`. -/
theorem c8_counterexample :
    chunkZeroSized._buffer.isSome = true ∧ chunkZeroSized.inBounds = false := by
  decide

/-- Claim C8 (amended): whenever a chunk's ownership slot holds a buffer,
`owned.address ≤ address`, `address ≤ owned.address + owned.length`, and
`address + length ≤ owned.address + owned.length`; the strict half-open
bound `address < owned.address + owned.length` additionally holds whenever
the owned buffer is nonempty. The null constructor leaves the slot empty,
and each of the three owning constructors establishes the invariant with
address and length equal to the owned buffer's full extent. -/
theorem c8_bounds (alloc : Nat → Option Nat) (n : Nat) (t : BufferChunk)
    (buffer : SharedBuffer) (mb : ManagedBuffer)
    (h : BufferChunk.ofSize alloc n = .ok t) :
    BufferChunk.nullChunk._buffer = none ∧
    t.fullExtent = true ∧ t.inBoundsClosed = true ∧ (0 < n → t.inBounds = true) ∧
    (BufferChunk.ofShared buffer).fullExtent = true ∧
    (BufferChunk.ofShared buffer).inBoundsClosed = true ∧
    (0 < buffer.length → (BufferChunk.ofShared buffer).inBounds = true) ∧
    (BufferChunk.ofManaged mb).fullExtent = true ∧
    (BufferChunk.ofManaged mb).inBoundsClosed = true ∧
    (0 < mb.getBuffer.length → (BufferChunk.ofManaged mb).inBounds = true) := by
  cases halloc : alloc n with
  | none =>
      rw [BufferChunk.ofSize, SharedBuffer.make, halloc] at h
      exact absurd h (by simp)
  | some a =>
      rw [ofSize_ok alloc n a halloc] at h
      injection h with h
      subst h
      refine ⟨rfl, ?_, ?_, ?_, ?_, ?_, ?_, ?_, ?_, ?_⟩
      · simp [BufferChunk.fullExtent]
      · simp [BufferChunk.inBoundsClosed]
      · intro hn
        simp [BufferChunk.inBounds]
        omega
      · simp [BufferChunk.fullExtent, BufferChunk.ofShared,
          SharedBuffer.getAddress, SharedBuffer.getLength]
      · simp [BufferChunk.inBoundsClosed, BufferChunk.ofShared,
          SharedBuffer.getAddress, SharedBuffer.getLength]
      · intro hb
        simp [BufferChunk.inBounds, BufferChunk.ofShared,
          SharedBuffer.getAddress, SharedBuffer.getLength]
        omega
      · simp [BufferChunk.fullExtent, BufferChunk.ofManaged,
          ManagedBuffer.getBuffer, SharedBuffer.getAddress, SharedBuffer.getLength]
      · simp [BufferChunk.inBoundsClosed, BufferChunk.ofManaged,
          ManagedBuffer.getBuffer, SharedBuffer.getAddress, SharedBuffer.getLength]
      · intro hb
        simp only [ManagedBuffer.getBuffer] at hb
        simp [BufferChunk.inBounds, BufferChunk.ofManaged,
          ManagedBuffer.getBuffer, SharedBuffer.getAddress, SharedBuffer.getLength]
        omega

/-- The chunk the sized constructor yields for 4 bytes at address 4096. -/
def chunkW4 : BufferChunk :=
  { address := 4096, length := 4, payload := List.replicate 4 0,
    _buffer := some { address := 4096, length := 4, data := List.replicate 4 0 },
    _managedBuffer := none }

/-- A concrete managed buffer wrapping a 2-byte raw buffer. -/
def mbW : ManagedBuffer :=
  { buffer := { address := 4096, length := 2, data := [5, 6] }, poolId := 1 }

/-- Witness for the amended claim C8 at a concrete 4-byte sized chunk, a
concrete adopted shared buffer, and a concrete adopted managed buffer. -/
theorem c8_bounds_witness :
    BufferChunk.nullChunk._buffer = none ∧
    chunkW4.fullExtent = true ∧ chunkW4.inBoundsClosed = true ∧
    ((0 : Nat) < 4 → chunkW4.inBounds = true) ∧
    (BufferChunk.ofShared { address := 4096, length := 2, data := [5, 6] }).fullExtent = true ∧
    (BufferChunk.ofShared { address := 4096, length := 2, data := [5, 6] }).inBoundsClosed = true ∧
    ((0 : Nat) < SharedBuffer.length { address := 4096, length := 2, data := [5, 6] } →
      (BufferChunk.ofShared { address := 4096, length := 2, data := [5, 6] }).inBounds = true) ∧
    (BufferChunk.ofManaged mbW).fullExtent = true ∧
    (BufferChunk.ofManaged mbW).inBoundsClosed = true ∧
    ((0 : Nat) < mbW.getBuffer.length → (BufferChunk.ofManaged mbW).inBounds = true) :=
  c8_bounds (fun _ => some 4096) 4 chunkW4
    { address := 4096, length := 2, data := [5, 6] } mbW rfl

/-- Claim C9: the registered reflection surface of the chunk type exposes
exactly a zero-argument constructor producing the null chunk, a
single-size-argument constructor producing a freshly allocated chunk, and
read-only by-name access to the `address` and `length` fields; every
exposed field accessor is insensitive to the ownership slots (no access to
ownership internals). -/
theorem c9_reflection :
    managedBufferChunk.ctorNull = some BufferChunk.nullChunk ∧
    (∀ f, managedBufferChunk.ctorSize = some f →
      ∀ alloc n, f alloc n = BufferChunk.ofSize alloc n) ∧
    managedBufferChunk.fields.map Prod.fst = ["address", "length"] ∧
    (∀ p ∈ managedBufferChunk.fields, ∀ c : BufferChunk,
      p.2 c = c.address ∨ p.2 c = c.length) ∧
    (∀ p ∈ managedBufferChunk.fields, ∀ c c' : BufferChunk,
      c.address = c'.address → c.length = c'.length → p.2 c = p.2 c') ∧
    managedBufferChunk.className = "Pothos/BufferChunk" := by
  refine ⟨rfl, ?_, rfl, ?_, ?_, rfl⟩
  · intro f hf alloc n
    simp only [managedBufferChunk, Option.some.injEq] at hf
    rw [← hf]
  · intro p hp c
    simp only [managedBufferChunk, List.mem_cons, List.not_mem_nil, or_false] at hp
    rcases hp with h | h <;> subst h
    · exact Or.inl rfl
    · exact Or.inr rfl
  · intro p hp c c' h1 h2
    simp only [managedBufferChunk, List.mem_cons, List.not_mem_nil, or_false] at hp
    rcases hp with h | h <;> subst h
    · exact h1
    · exact h2

/-- Witness for claim C9: the `address` accessor, applied through the
registration, agrees on two chunks that differ only in their ownership
slots. -/
theorem c9_reflection_witness :
    managedBufferChunk.ctorNull = some BufferChunk.nullChunk ∧
    ("address", BufferChunk.address) ∈ managedBufferChunk.fields ∧
    ("address", BufferChunk.address).2 chunkW =
      ("address", BufferChunk.address).2
        { address := 4096, length := 2, payload := [5, 6],
          _buffer := none, _managedBuffer := none } :=
  ⟨c9_reflection.1, List.Mem.head _,
   c9_reflection.2.2.2.2.1 ("address", BufferChunk.address) (List.Mem.head _)
     chunkW _ rfl rfl⟩

end Pothos
